import Mathlib

/-!
Verification of the APOD preprocessing script (src/preprocess.py).

The script is a linear pipeline: fetch metadata JSON, select an asset URL by
the media_type discriminant, download the asset, decode it, compute target
dimensions against a 320 x 240 bounding box, resize, and save a baseline JPEG
at a fixed relative path.

The dimension arithmetic in the source is performed with Python floats, that
is, IEEE-754 binary64 values.  CPython evaluates int((s / a) * b) on ints
s, a, b as: correctly rounded double division s / a, conversion of b to the
nearest double, correctly rounded double multiplication, and truncation
toward zero.  We embed this arithmetic exactly over the naturals: a double is
represented as a pair (m, e) with value m * 2 ^ e, and each operation rounds
to 53 significand bits with round half to even.  The exponent range of
binary64 is not modelled; it is not reachable for the magnitudes involved
here (no overflow below 2 ^ 971, no subnormals above 2 ^ (-1021)).
-/

/-- Floor of log base 2, computed with explicit fuel so that the kernel can
reduce it by structural recursion.  For n with 1 <= n <= fuel this is the
largest k with 2 ^ k <= n. -/
def log2fuel : Nat → Nat → Nat
  | 0, _ => 0
  | fuel + 1, n => if n < 2 then 0 else log2fuel fuel (n / 2) + 1

/-- Floor of log base 2 of a positive natural number. -/
def flog2 (n : Nat) : Nat := log2fuel n n

/-- Round half to even: the integer nearest to N / D, with ties resolved to
the even neighbour. -/
def rhe (N D : Nat) : Nat :=
  let q := N / D
  let r := N % D
  if 2 * r < D then q else if D < 2 * r then q + 1
  else if q % 2 = 0 then q else q + 1

/-- Exponent of the binary64 value nearest to n / d: the e such that
(n / d) * 2 ^ (-e) lies in [2 ^ 52, 2 ^ 53). -/
def rexp (n d : Nat) : Int :=
  (if d * 2 ^ flog2 n ≤ n * 2 ^ flog2 d
   then (flog2 n : Int) - flog2 d
   else (flog2 n : Int) - flog2 d - 1) - 52

/-- Round the positive rational n / d to the nearest IEEE-754 binary64 value
(53 significand bits, round half to even, exponent unbounded).  The result is
a pair (m, e) whose value is m * 2 ^ e.  For n = 0 or d = 0 the result is the
junk value (0, 0); the program never divides by zero on its reachable
paths. -/
def roundRat (n d : Nat) : Nat × Int :=
  if n = 0 ∨ d = 0 then (0, 0)
  else
    let e := rexp n d
    if 0 ≤ e then (rhe n (d * 2 ^ e.toNat), e)
    else (rhe (n * 2 ^ (-e).toNat) d, e)

/-- Value of a significand-exponent pair as a rational number. -/
def dval (p : Nat × Int) : ℚ := (p.1 : ℚ) * 2 ^ p.2

/-- The Python expression int((s / a) * b) on ints, evaluated in IEEE-754
double precision exactly as CPython evaluates it: s / a is a correctly
rounded double division, b is converted to the nearest double, the product is
a correctly rounded double multiplication, and int truncates (the value here
is nonnegative, so truncation is the floor). -/
def pyScale (s a b : Nat) : Nat :=
  let r1 := roundRat s a
  let rb := roundRat b 1
  let r2 := roundRat (r1.1 * rb.1) 1
  let e : Int := r2.2 + rb.2 + r1.2
  if 0 ≤ e then r2.1 * 2 ^ e.toNat else r2.1 / 2 ^ (-e).toNat

/-- Target dimensions computed by main (src/preprocess.py lines 70 to 90):
screen_width, screen_height = 320, 240; if the image is not square, the
larger source dimension is scaled to the corresponding screen dimension and
the other dimension is int((scaled / image_dim) * other_dim) in double
arithmetic; a square image gets min(screen_width, screen_height) in both
dimensions. -/
def scaledDims (image_width image_height : Nat) : Nat × Nat :=
  if image_width ≠ image_height then
    if image_width > image_height then
      (320, pyScale 320 image_width image_height)
    else
      (pyScale 240 image_height image_width, 240)
  else
    (min 320 240, min 320 240)

/-- Target dimensions as the amended specification words them: square images
map to (min(sw, sh), min(sw, sh)); otherwise the larger source dimension is
pinned to the matching box dimension and the other is int((box / larger) *
smaller) evaluated in IEEE-754 double arithmetic. -/
def targetDimsSpec (iw ih : Nat) : Nat × Nat :=
  if iw = ih then (min 320 240, min 320 240)
  else if iw > ih then (320, pyScale 320 iw ih)
  else (pyScale 240 ih iw, 240)

/-- Diagnostic lines printed by main.  respCode n stands for the line
printed as Response Code followed by the status code n. -/
inductive Msg where
  | errContact : Msg
  | errDownload : Msg
  | errParse : Msg
  | respCode : Nat → Msg
deriving DecidableEq

/-- How a run of the script ends: fall through to the end (exit code 0),
an explicit sys.exit call, or an uncaught exception (KeyError on a missing
JSON field, or a decode failure in the image library). -/
inductive ExitKind where
  | success : ExitKind
  | exited : Nat → ExitKind
  | crash : ExitKind
deriving DecidableEq

/-- The file produced by image.save at the end of a successful run. -/
structure OutFile where
  path : String
  format : String
  progressive : Bool
  width : Nat
  height : Nat
deriving DecidableEq

/-- The external world as main observes it: the HTTP status of the metadata
request, the parsed JSON object (modelled as an association list of string
fields, as produced by response.json()), the HTTP status of the asset
download, and the dimensions of the decoded bitmap (none models bytes the
image library cannot decode). -/
structure Env where
  metaStatus : Nat
  metaDoc : List (String × String)
  assetStatus : Nat
  decoded : Option (Nat × Nat)
deriving DecidableEq

/-- Observable outcome of one run of main: the diagnostic lines printed in
order, whether response.json() was evaluated, the URL passed to the second
requests.get call if it was issued, the file handed to image.save if the run
got that far, and how the process ended. -/
structure RunResult where
  out : List Msg
  parsedJson : Bool
  assetRequest : Option String
  written : Option OutFile
  exit : ExitKind
deriving DecidableEq

/-- Download and preprocessing phase of main (src/preprocess.py lines 49 to
96): GET the asset URL, bail out with exit code 1 on a non-200 status, decode
the bytes, compute the scaled dimensions, resize, and save the result as a
baseline JPEG at the fixed relative path. -/
def download (env : Env) (url : String) : RunResult :=
  if env.assetStatus ≠ 200 then
    ⟨[Msg.errDownload, Msg.respCode env.assetStatus], true, some url, none,
      ExitKind.exited 1⟩
  else
    match env.decoded with
    | none => ⟨[], true, some url, none, ExitKind.crash⟩
    | some (iw, ih) =>
      let d := scaledDims iw ih
      ⟨[], true, some url,
        some ⟨"../image/apod.jpg", "JPEG", false, d.1, d.2⟩,
        ExitKind.success⟩

/-- One run of main (src/preprocess.py): GET the metadata URL, bail out with
exit code 1 on a non-200 status, parse the JSON, select the asset URL by the
media_type discriminant (url for image, thumbnail_url for video, exit code 1
otherwise; a missing field raises KeyError), then the download phase. -/
def runMain (env : Env) : RunResult :=
  if env.metaStatus ≠ 200 then
    ⟨[Msg.errContact, Msg.respCode env.metaStatus], false, none, none,
      ExitKind.exited 1⟩
  else
    match List.lookup "media_type" env.metaDoc with
    | none => ⟨[], true, none, none, ExitKind.crash⟩
    | some mt =>
      if mt = "image" then
        match List.lookup "url" env.metaDoc with
        | none => ⟨[], true, none, none, ExitKind.crash⟩
        | some u => download env u
      else if mt = "video" then
        match List.lookup "thumbnail_url" env.metaDoc with
        | none => ⟨[], true, none, none, ExitKind.crash⟩
        | some u => download env u
      else ⟨[Msg.errParse], true, none, none, ExitKind.exited 1⟩

/-- One run of main together with its effect on the output path.  The second
component is the content of the output path after the run, given its content
fs before the run; image.save replaces whatever is at the path. -/
def runApp (env : Env) (fs : Option OutFile) : RunResult × Option OutFile :=
  let r := runMain env
  (r, match r.written with
      | some f => some f
      | none => fs)

set_option maxRecDepth 100000

/-- Correctness of the fuelled log: with enough fuel it brackets n between
consecutive powers of two. -/
theorem log2fuel_spec :
    ∀ fuel n : Nat, 0 < n → n ≤ fuel →
      2 ^ log2fuel fuel n ≤ n ∧ n < 2 ^ (log2fuel fuel n + 1) := by
  intro fuel
  induction fuel with
  | zero => intro n h1 h2; omega
  | succ fuel ih =>
    intro n h1 h2
    by_cases h : n < 2
    · have hn1 : n = 1 := by omega
      simp [log2fuel, h, hn1]
    · have hrec : 0 < n / 2 := by omega
      have hfuel : n / 2 ≤ fuel := by omega
      obtain ⟨hl, hr⟩ := ih (n / 2) hrec hfuel
      have e1 : log2fuel (fuel + 1) n = log2fuel fuel (n / 2) + 1 := by
        simp [log2fuel, h]
      rw [e1]
      constructor
      · have : 2 ^ (log2fuel fuel (n / 2) + 1) = 2 * 2 ^ log2fuel fuel (n / 2) := by
          ring
        omega
      · have : 2 ^ (log2fuel fuel (n / 2) + 1 + 1) = 2 * 2 ^ (log2fuel fuel (n / 2) + 1) := by
          ring
        omega

/-- Bracketing property of flog2 on positive inputs. -/
theorem flog2_spec (n : Nat) (h : 0 < n) :
    2 ^ flog2 n ≤ n ∧ n < 2 ^ (flog2 n + 1) :=
  log2fuel_spec n n h le_rfl

/-- Round half to even lands within half a unit of the true quotient,
stated multiplicatively over the naturals. -/
theorem rhe_bounds (N D : Nat) (hD : 0 < D) :
    2 * N ≤ 2 * rhe N D * D + D ∧ 2 * rhe N D * D ≤ 2 * N + D := by
  have hdm : D * (N / D) + N % D = N := Nat.div_add_mod N D
  have hmlt : N % D < D := Nat.mod_lt _ hD
  set q := N / D with hq
  set r := N % D with hr
  unfold rhe
  rw [← hq, ← hr]
  by_cases h1 : 2 * r < D
  · simp only [if_pos h1]
    constructor <;> nlinarith
  · by_cases h2 : D < 2 * r
    · simp only [if_neg h1, if_pos h2]
      constructor <;> nlinarith
    · have h3 : 2 * r = D := by omega
      by_cases h4 : q % 2 = 0
      · simp only [if_neg h1, if_neg h2, if_pos h4]
        constructor <;> nlinarith
      · simp only [if_neg h1, if_neg h2, if_neg h4]
        constructor <;> nlinarith

/-- The exponent chosen by rexp brackets n / d: multiplicatively,
2 ^ (rexp n d + 52) * d ≤ n < 2 ^ (rexp n d + 53) * d. -/
theorem rexp_bracket (n d : Nat) (hn : 0 < n) (hd : 0 < d) :
    (2:ℚ) ^ (rexp n d + 52) * d ≤ n ∧ (n:ℚ) < 2 ^ (rexp n d + 53) * d := by
  obtain ⟨ha1, ha2⟩ := flog2_spec n hn
  obtain ⟨hb1, hb2⟩ := flog2_spec d hd
  set a := flog2 n with haa
  set b := flog2 d with hbb
  have ha1Q : (2:ℚ) ^ (a:ℤ) ≤ n := by
    rw [zpow_natCast]; exact_mod_cast ha1
  have ha2Q : (n:ℚ) < 2 ^ ((a:ℤ) + 1) := by
    have : ((a:ℤ) + 1) = ((a + 1 : ℕ) : ℤ) := by push_cast; ring
    rw [this, zpow_natCast]; exact_mod_cast ha2
  have hb1Q : (2:ℚ) ^ (b:ℤ) ≤ d := by
    rw [zpow_natCast]; exact_mod_cast hb1
  have hb2Q : (d:ℚ) < 2 ^ ((b:ℤ) + 1) := by
    have : ((b:ℤ) + 1) = ((b + 1 : ℕ) : ℤ) := by push_cast; ring
    rw [this, zpow_natCast]; exact_mod_cast hb2
  by_cases hc : d * 2 ^ a ≤ n * 2 ^ b
  · have hE : rexp n d = (a:ℤ) - b - 52 := by
      rw [rexp, ← haa, ← hbb, if_pos hc]
    have hcQ : (d:ℚ) * 2 ^ (a:ℤ) ≤ (n:ℚ) * 2 ^ (b:ℤ) := by
      rw [zpow_natCast, zpow_natCast]; exact_mod_cast hc
    constructor
    · have he1 : rexp n d + 52 = (a:ℤ) - b := by rw [hE]; ring
      rw [he1]
      have h2b : (0:ℚ) < 2 ^ (b:ℤ) := by positivity
      rw [← mul_le_mul_right h2b]
      calc (2:ℚ) ^ ((a:ℤ) - b) * d * 2 ^ (b:ℤ)
          = (d:ℚ) * (2 ^ ((a:ℤ) - b) * 2 ^ (b:ℤ)) := by ring
        _ = (d:ℚ) * 2 ^ (a:ℤ) := by
            rw [← zpow_add₀ (two_ne_zero) ((a:ℤ) - b) (b:ℤ)]
            norm_num
        _ ≤ (n:ℚ) * 2 ^ (b:ℤ) := hcQ
    · have he2 : rexp n d + 53 = (a:ℤ) - b + 1 := by rw [hE]; ring
      rw [he2]
      have h2ab : (2:ℚ) ^ ((a:ℤ) - b + 1) * 2 ^ (b:ℤ) = 2 ^ ((a:ℤ) + 1) := by
        rw [← zpow_add₀ (two_ne_zero) ((a:ℤ) - b + 1) (b:ℤ)]
        congr 1
        ring
      have hpos : (0:ℚ) < 2 ^ ((a:ℤ) - b + 1) := by positivity
      calc (n:ℚ) < 2 ^ ((a:ℤ) + 1) := ha2Q
        _ = 2 ^ ((a:ℤ) - b + 1) * 2 ^ (b:ℤ) := h2ab.symm
        _ ≤ 2 ^ ((a:ℤ) - b + 1) * d := by
            exact mul_le_mul_of_nonneg_left hb1Q (le_of_lt hpos)
  · have hE : rexp n d = (a:ℤ) - b - 1 - 52 := by
      rw [rexp, ← haa, ← hbb, if_neg hc]
    have hcQ : (n:ℚ) * 2 ^ (b:ℤ) < (d:ℚ) * 2 ^ (a:ℤ) := by
      have hlt : n * 2 ^ b < d * 2 ^ a := by omega
      rw [zpow_natCast, zpow_natCast]; exact_mod_cast hlt
    constructor
    · have he1 : rexp n d + 52 = (a:ℤ) - b - 1 := by rw [hE]; ring
      rw [he1]
      have key : (2:ℚ) ^ ((a:ℤ) - b - 1) * 2 ^ ((b:ℤ) + 1) = 2 ^ (a:ℤ) := by
        rw [← zpow_add₀ (two_ne_zero) ((a:ℤ) - b - 1) ((b:ℤ) + 1)]
        norm_num
      have hpos : (0:ℚ) < 2 ^ ((a:ℤ) - b - 1) := by positivity
      calc (2:ℚ) ^ ((a:ℤ) - b - 1) * d
          ≤ 2 ^ ((a:ℤ) - b - 1) * 2 ^ ((b:ℤ) + 1) := by
            exact mul_le_mul_of_nonneg_left (le_of_lt hb2Q) (le_of_lt hpos)
        _ = 2 ^ (a:ℤ) := key
        _ ≤ n := ha1Q
    · have he2 : rexp n d + 53 = (a:ℤ) - b := by rw [hE]; ring
      rw [he2]
      have h2b : (0:ℚ) < 2 ^ (b:ℤ) := by positivity
      rw [← mul_lt_mul_right h2b]
      calc (n:ℚ) * 2 ^ (b:ℤ) < (d:ℚ) * 2 ^ (a:ℤ) := hcQ
        _ = 2 ^ ((a:ℤ) - b) * d * 2 ^ (b:ℤ) := by
            rw [show (2:ℚ) ^ ((a:ℤ) - b) * d * 2 ^ (b:ℤ)
                  = (d:ℚ) * (2 ^ ((a:ℤ) - b) * 2 ^ (b:ℤ)) by ring,
               ← zpow_add₀ (two_ne_zero) ((a:ℤ) - b) (b:ℤ)]
            norm_num

/-- Value of a rounding result is nonnegative. -/
theorem dval_nonneg (p : Nat × Int) : 0 ≤ dval p := by
  unfold dval
  positivity

/-- Correct rounding: for positive n and d, roundRat n d has a positive
significand and its value lies within a relative error of 2 ^ (-53) of
n / d, stated multiplicatively. -/
theorem roundRat_bounds (n d : Nat) (hn : 0 < n) (hd : 0 < d) :
    0 < (roundRat n d).1 ∧
    (n:ℚ) * (1 - 1/2^53) ≤ dval (roundRat n d) * d ∧
    dval (roundRat n d) * d ≤ (n:ℚ) * (1 + 1/2^53) := by
  have h0 : ¬(n = 0 ∨ d = 0) := by omega
  obtain ⟨hB1, hB2⟩ := rexp_bracket n d hn hd
  set e := rexp n d with hee
  by_cases he : 0 ≤ e
  · have hRR : roundRat n d = (rhe n (d * 2 ^ e.toNat), e) := by
      simp only [roundRat, if_neg h0, ← hee, if_pos he]
    set D := d * 2 ^ e.toNat with hDD
    set m := rhe n D with hmm
    have hDpos : 0 < D := by positivity
    obtain ⟨c1, c2⟩ := rhe_bounds n D hDpos
    have hDQ : (D:ℚ) = (d:ℚ) * 2 ^ (e:ℤ) := by
      rw [hDD]
      push_cast
      rw [← zpow_natCast (2:ℚ) e.toNat, Int.toNat_of_nonneg he]
    have hP : (D:ℚ) * 2 ^ 52 ≤ n := by
      rw [hDQ]
      calc (d:ℚ) * 2 ^ (e:ℤ) * 2 ^ 52 = 2 ^ (e + 52) * d := by
            rw [zpow_add₀ (two_ne_zero) e 52]
            norm_num
            ring
        _ ≤ n := hB1
    have hdv : dval (roundRat n d) = (m:ℚ) * 2 ^ (e:ℤ) := by
      rw [hRR]; rfl
    have c1Q : 2 * (n:ℚ) ≤ 2 * m * D + D := by exact_mod_cast c1
    have c2Q : 2 * (m:ℚ) * D ≤ 2 * n + D := by exact_mod_cast c2
    have hmD : dval (roundRat n d) * d = (m:ℚ) * D := by
      rw [hdv, hDQ]; ring
    refine ⟨?_, ?_, ?_⟩
    · rw [hRR]
      simp only
      rcases Nat.eq_zero_or_pos m with hz | hp
      · exfalso
        have hPnat : D * 2 ^ 52 ≤ n := by exact_mod_cast hP
        have c1m : 2 * n ≤ 2 * m * D + D := c1
        rw [hz] at c1m
        simp at c1m
        omega
      · exact hp
    · rw [hmD]; linarith
    · rw [hmD]; linarith
  · have hRR : roundRat n d = (rhe (n * 2 ^ (-e).toNat) d, e) := by
      simp only [roundRat, if_neg h0, ← hee, if_neg he]
    set N := n * 2 ^ (-e).toNat with hNN
    set m := rhe N d with hmm
    obtain ⟨c1, c2⟩ := rhe_bounds N d hd
    have hNQ : (N:ℚ) = (n:ℚ) * 2 ^ (-(e:ℤ)) := by
      rw [hNN]
      push_cast
      rw [← zpow_natCast (2:ℚ) (-e).toNat, Int.toNat_of_nonneg (by omega : (0:ℤ) ≤ -e)]
    have hpow : (0:ℚ) < 2 ^ (e:ℤ) := by positivity
    have hNe : (N:ℚ) * 2 ^ (e:ℤ) = n := by
      rw [hNQ, mul_assoc, ← zpow_add₀ (two_ne_zero) (-(e:ℤ)) e]
      norm_num
    have hP : (d:ℚ) * 2 ^ (e:ℤ) * 2 ^ 52 ≤ n := by
      calc (d:ℚ) * 2 ^ (e:ℤ) * 2 ^ 52 = 2 ^ (e + 52) * d := by
            rw [zpow_add₀ (two_ne_zero) e 52]
            norm_num
            ring
        _ ≤ n := hB1
    have hdv : dval (roundRat n d) = (m:ℚ) * 2 ^ (e:ℤ) := by
      rw [hRR]; rfl
    have c1Q : 2 * (N:ℚ) ≤ 2 * m * d + d := by exact_mod_cast c1
    have c2Q : 2 * (m:ℚ) * d ≤ 2 * N + d := by exact_mod_cast c2
    have c1s : 2 * (N:ℚ) * 2 ^ (e:ℤ) ≤ (2 * m * d + d) * 2 ^ (e:ℤ) :=
      mul_le_mul_of_nonneg_right c1Q (le_of_lt hpow)
    have c2s : 2 * (m:ℚ) * d * 2 ^ (e:ℤ) ≤ (2 * N + d) * 2 ^ (e:ℤ) :=
      mul_le_mul_of_nonneg_right c2Q (le_of_lt hpow)
    have hexp1 : 2 * (N:ℚ) * 2 ^ (e:ℤ) = 2 * n := by rw [mul_assoc, hNe]
    have hexp2 : (2 * (m:ℚ) * d + d) * 2 ^ (e:ℤ)
        = 2 * (m * 2 ^ (e:ℤ) * d) + d * 2 ^ (e:ℤ) := by ring
    have hexp3 : (2 * (N:ℚ) + d) * 2 ^ (e:ℤ)
        = 2 * n + d * 2 ^ (e:ℤ) := by
      rw [add_mul, mul_assoc, hNe]
    refine ⟨?_, ?_, ?_⟩
    · rw [hRR]
      simp only
      rcases Nat.eq_zero_or_pos m with hz | hp
      · exfalso
        have c1m : 2 * N ≤ 2 * m * d + d := c1
        rw [hz] at c1m
        simp at c1m
        have hNpos : 0 < N := by positivity
        have hdN : (d:ℚ) * 2 ^ 52 ≤ N := by
          have h1 : (d:ℚ) * 2 ^ (e:ℤ) * 2 ^ 52 * 2 ^ (-(e:ℤ))
              ≤ (n:ℚ) * 2 ^ (-(e:ℤ)) := by
            apply mul_le_mul_of_nonneg_right hP
            positivity
          calc (d:ℚ) * 2 ^ 52 = (d:ℚ) * 2 ^ (e:ℤ) * 2 ^ 52 * 2 ^ (-(e:ℤ)) := by
                rw [show (d:ℚ) * 2 ^ (e:ℤ) * 2 ^ 52 * 2 ^ (-(e:ℤ))
                      = (d:ℚ) * 2 ^ 52 * (2 ^ (e:ℤ) * 2 ^ (-(e:ℤ))) by ring,
                   ← zpow_add₀ (two_ne_zero) e (-(e:ℤ))]
                norm_num
            _ ≤ (n:ℚ) * 2 ^ (-(e:ℤ)) := h1
            _ = N := by rw [hNQ]
          
        have hdNnat : d * 2 ^ 52 ≤ N := by exact_mod_cast hdN
        omega
      · exact hp
    · have goal2 : dval (roundRat n d) * d = (m:ℚ) * 2 ^ (e:ℤ) * d := by
        rw [hdv]
      rw [goal2]
      have lhs : 2 * (n:ℚ) ≤ 2 * ((m:ℚ) * 2 ^ (e:ℤ) * d) + d * 2 ^ (e:ℤ) := by
        calc 2 * (n:ℚ) = 2 * (N:ℚ) * 2 ^ (e:ℤ) := hexp1.symm
          _ ≤ (2 * m * d + d) * 2 ^ (e:ℤ) := c1s
          _ = 2 * ((m:ℚ) * 2 ^ (e:ℤ) * d) + d * 2 ^ (e:ℤ) := by ring
      linarith
    · have goal3 : dval (roundRat n d) * d = (m:ℚ) * 2 ^ (e:ℤ) * d := by
        rw [hdv]
      rw [goal3]
      have rhs : 2 * ((m:ℚ) * 2 ^ (e:ℤ) * d) ≤ 2 * n + d * 2 ^ (e:ℤ) := by
        calc 2 * ((m:ℚ) * 2 ^ (e:ℤ) * d) = 2 * (m:ℚ) * d * 2 ^ (e:ℤ) := by ring
          _ ≤ (2 * N + d) * 2 ^ (e:ℤ) := c2s
          _ = 2 * n + d * 2 ^ (e:ℤ) := hexp3
      linarith

/-- Floor of m * 2 ^ e over the rationals agrees with the shift arithmetic
used in pyScale. -/
theorem floor_mul_zpow (m : Nat) (e : Int) :
    ⌊(m : ℚ) * (2:ℚ) ^ e⌋₊ = if 0 ≤ e then m * 2 ^ e.toNat else m / 2 ^ (-e).toNat := by
  by_cases he : 0 ≤ e
  · rw [if_pos he]
    have hcast : (m : ℚ) * (2:ℚ) ^ e = ((m * 2 ^ e.toNat : ℕ) : ℚ) := by
      push_cast
      rw [← zpow_natCast (2:ℚ) e.toNat, Int.toNat_of_nonneg he]
    rw [hcast, Nat.floor_natCast]
  · rw [if_neg he]
    have hk : (2:ℚ) ^ e = ((2 ^ (-e).toNat : ℕ) : ℚ)⁻¹ := by
      push_cast
      rw [← zpow_natCast (2:ℚ) (-e).toNat, Int.toNat_of_nonneg (by omega : (0:ℤ) ≤ -e),
        ← zpow_neg]
      norm_num
    rw [hk, ← div_eq_mul_inv, Nat.floor_div_nat, Nat.floor_natCast]

/-- pyScale is the floor of the rational value of the rounded product. -/
theorem pyScale_eq_floor (s a b : Nat) :
    pyScale s a b =
      ⌊dval (roundRat ((roundRat s a).1 * (roundRat b 1).1) 1) *
        (2:ℚ) ^ ((roundRat b 1).2 + (roundRat s a).2)⌋₊ := by
  have h1 : dval (roundRat ((roundRat s a).1 * (roundRat b 1).1) 1) *
      (2:ℚ) ^ ((roundRat b 1).2 + (roundRat s a).2)
      = ((roundRat ((roundRat s a).1 * (roundRat b 1).1) 1).1 : ℚ) *
        (2:ℚ) ^ ((roundRat ((roundRat s a).1 * (roundRat b 1).1) 1).2 +
          (roundRat b 1).2 + (roundRat s a).2) := by
    unfold dval
    rw [mul_assoc, ← zpow_add₀ (two_ne_zero)]
    rw [show (roundRat ((roundRat s a).1 * (roundRat b 1).1) 1).2 +
        ((roundRat b 1).2 + (roundRat s a).2) =
        (roundRat ((roundRat s a).1 * (roundRat b 1).1) 1).2 +
        (roundRat b 1).2 + (roundRat s a).2 from by ring]
  rw [h1, floor_mul_zpow]
  rfl

/-- Bracketing of the double-precision scaling expression: for positive
inputs with s * b below 2 ^ 50, the value int((s / a) * b) computed in
double arithmetic is the exact floor of s * b / a or one less. -/
theorem pyScale_bracket (s a b : Nat) (hs : 0 < s) (ha : 0 < a) (hb : 0 < b)
    (hbound : s * b < 2 ^ 50) :
    pyScale s a b ≤ s * b / a ∧ s * b / a ≤ pyScale s a b + 1 := by
  obtain ⟨m1pos, l1, u1⟩ := roundRat_bounds s a hs ha
  obtain ⟨mbpos, lb, ub⟩ := roundRat_bounds b 1 hb one_pos
  have hppos : 0 < (roundRat s a).1 * (roundRat b 1).1 := Nat.mul_pos m1pos mbpos
  obtain ⟨m2pos, l2, u2⟩ :=
    roundRat_bounds ((roundRat s a).1 * (roundRat b 1).1) 1 hppos one_pos
  have hw := pyScale_eq_floor s a b
  rw [Nat.cast_one, mul_one] at lb ub l2 u2
  set r1 := roundRat s a with hr1
  set rb := roundRat b 1 with hrb
  set p := r1.1 * rb.1 with hp
  set Z := dval (roundRat p 1) with hZdef
  set E := (2:ℚ) ^ (rb.2 + r1.2) with hEdef
  set X := dval r1 with hXdef
  set Y := dval rb with hYdef
  have hXn : (0:ℚ) ≤ X := dval_nonneg r1
  have hYn : (0:ℚ) ≤ Y := dval_nonneg rb
  have hZn : (0:ℚ) ≤ Z := dval_nonneg (roundRat p 1)
  have hEp : (0:ℚ) < E := by rw [hEdef]; positivity
  have haQ : (1:ℚ) ≤ a := by exact_mod_cast ha
  have hpc : (p:ℚ) = (r1.1:ℚ) * (rb.1:ℚ) := by rw [hp]; push_cast; ring
  have hXY : X * Y = (p:ℚ) * E := by
    rw [hXdef, hYdef, hEdef]
    unfold dval
    rw [hpc, zpow_add₀ (two_ne_zero) rb.2 r1.2]
    ring
  set w : ℚ := Z * E with hwdef
  have hwn : (0:ℚ) ≤ w := mul_nonneg hZn hEp.le
  -- upper estimate: w * a ≤ s * b * (1 + eps) ^ 3
  have key_u : w * a ≤ (s:ℚ) * b * (1 + 1/2^53)^3 := by
    have t1 : w * a ≤ ((p:ℚ) * (1 + 1/2^53)) * E * a := by
      apply mul_le_mul_of_nonneg_right _ (Nat.cast_nonneg a)
      exact mul_le_mul_of_nonneg_right u2 hEp.le
    have t2 : ((p:ℚ) * (1 + 1/2^53)) * E * a = (X * a) * Y * (1 + 1/2^53) := by
      rw [show ((p:ℚ) * (1 + 1/2^53)) * E * a = ((p:ℚ) * E) * a * (1 + 1/2^53) from by ring,
        ← hXY]
      ring
    have t3 : (X * a) * Y * (1 + 1/2^53)
        ≤ ((s:ℚ) * (1 + 1/2^53)) * ((b:ℚ) * (1 + 1/2^53)) * (1 + 1/2^53) := by
      apply mul_le_mul_of_nonneg_right _ (by norm_num : (0:ℚ) ≤ 1 + 1/2^53)
      apply mul_le_mul u1 ub hYn
      positivity
    calc w * a ≤ ((p:ℚ) * (1 + 1/2^53)) * E * a := t1
      _ = (X * a) * Y * (1 + 1/2^53) := t2
      _ ≤ ((s:ℚ) * (1 + 1/2^53)) * ((b:ℚ) * (1 + 1/2^53)) * (1 + 1/2^53) := t3
      _ = (s:ℚ) * b * (1 + 1/2^53)^3 := by ring
  -- lower estimate: s * b * (1 - eps) ^ 3 ≤ w * a
  have key_l : (s:ℚ) * b * (1 - 1/2^53)^3 ≤ w * a := by
    have t1 : ((s:ℚ) * (1 - 1/2^53)) * ((b:ℚ) * (1 - 1/2^53)) ≤ (X * a) * Y := by
      apply mul_le_mul l1 lb
      · positivity
      · positivity
    have t2 : ((s:ℚ) * (1 - 1/2^53)) * ((b:ℚ) * (1 - 1/2^53)) * (1 - 1/2^53)
        ≤ (X * a) * Y * (1 - 1/2^53) :=
      mul_le_mul_of_nonneg_right t1 (by norm_num)
    have t3 : (X * a) * Y * (1 - 1/2^53) = ((p:ℚ) * (1 - 1/2^53)) * E * a := by
      rw [show (X * a) * Y * (1 - 1/2^53) = (X * Y) * a * (1 - 1/2^53) from by ring, hXY]
      ring
    have t4 : ((p:ℚ) * (1 - 1/2^53)) * E * a ≤ w * a := by
      apply mul_le_mul_of_nonneg_right _ (Nat.cast_nonneg a)
      exact mul_le_mul_of_nonneg_right l2 hEp.le
    calc (s:ℚ) * b * (1 - 1/2^53)^3
        = ((s:ℚ) * (1 - 1/2^53)) * ((b:ℚ) * (1 - 1/2^53)) * (1 - 1/2^53) := by ring
      _ ≤ (X * a) * Y * (1 - 1/2^53) := t2
      _ = ((p:ℚ) * (1 - 1/2^53)) * E * a := t3
      _ ≤ w * a := t4
  have hsbQ : ((s * b : ℕ) : ℚ) ≤ 2^50 := by
    have : (s * b : ℕ) ≤ 2^50 := le_of_lt hbound
    exact_mod_cast this
  have hsbQe : ((s * b : ℕ) : ℚ) = (s:ℚ) * b := by push_cast; ring
  constructor
  · -- pyScale ≤ s * b / a
    have hq1 : s * b < (s * b / a + 1) * a := by
      have h1 := Nat.div_add_mod (s * b) a
      have h2 : s * b % a < a := Nat.mod_lt _ ha
      calc s * b = a * (s * b / a) + s * b % a := h1.symm
        _ < a * (s * b / a) + a := by omega
        _ = (s * b / a + 1) * a := by ring
    have hq1Q : ((s * b : ℕ) : ℚ) + 1 ≤ ((s * b / a + 1 : ℕ) : ℚ) * a := by
      have : s * b + 1 ≤ (s * b / a + 1) * a := hq1
      exact_mod_cast this
    have hsmall : (s:ℚ) * b * (1 + 1/2^53)^3 < ((s * b : ℕ) : ℚ) + 1 := by
      rw [hsbQe]
      have hsb0 : (s:ℚ) * b ≤ 2^50 := by rw [← hsbQe]; exact hsbQ
      have hc0 : (0:ℚ) ≤ ((1:ℚ) + 1/2^53)^3 - 1 := by norm_num
      have step : (s:ℚ) * b * (((1:ℚ) + 1/2^53)^3 - 1)
          ≤ (2^50:ℚ) * (((1:ℚ) + 1/2^53)^3 - 1) :=
        mul_le_mul_of_nonneg_right hsb0 hc0
      have final : (2^50:ℚ) * (((1:ℚ) + 1/2^53)^3 - 1) < 1 := by norm_num
      have hid : (s:ℚ) * b * (1 + 1/2^53)^3
          = (s:ℚ) * b + (s:ℚ) * b * (((1:ℚ) + 1/2^53)^3 - 1) := by ring
      linarith
    have hwa : w * a < ((s * b / a + 1 : ℕ) : ℚ) * a := by
      calc w * a ≤ (s:ℚ) * b * (1 + 1/2^53)^3 := key_u
        _ < ((s * b : ℕ) : ℚ) + 1 := hsmall
        _ ≤ ((s * b / a + 1 : ℕ) : ℚ) * a := hq1Q
    have hwlt : w < ((s * b / a + 1 : ℕ) : ℚ) := by
      have haQ0 : (0:ℚ) < a := by exact_mod_cast ha
      exact lt_of_mul_lt_mul_right hwa (le_of_lt haQ0) |>.trans_le (le_refl _)
    have := (Nat.floor_lt hwn).mpr hwlt
    rw [hw]
    omega
  · -- s * b / a ≤ pyScale + 1
    have hq2 : (s * b / a) * a ≤ s * b := Nat.div_mul_le_self _ _
    have hq2Q : ((s * b / a : ℕ) : ℚ) * a ≤ ((s * b : ℕ) : ℚ) := by exact_mod_cast hq2
    have hsmall2 : ((s * b : ℕ) : ℚ) - 1 < (s:ℚ) * b * (1 - 1/2^53)^3 := by
      rw [hsbQe]
      have hsb0 : (s:ℚ) * b ≤ 2^50 := by rw [← hsbQe]; exact hsbQ
      have hc0 : (0:ℚ) ≤ (1:ℚ) - ((1:ℚ) - 1/2^53)^3 := by norm_num
      have step : (s:ℚ) * b * ((1:ℚ) - ((1:ℚ) - 1/2^53)^3)
          ≤ (2^50:ℚ) * ((1:ℚ) - ((1:ℚ) - 1/2^53)^3) :=
        mul_le_mul_of_nonneg_right hsb0 hc0
      have final : (2^50:ℚ) * ((1:ℚ) - ((1:ℚ) - 1/2^53)^3) < 1 := by norm_num
      have hid : (s:ℚ) * b * (1 - 1/2^53)^3
          = (s:ℚ) * b - (s:ℚ) * b * ((1:ℚ) - ((1:ℚ) - 1/2^53)^3) := by ring
      linarith
    have hwa2 : ((s * b / a : ℕ) : ℚ) * a - 1 < w * a := by
      calc ((s * b / a : ℕ) : ℚ) * a - 1 ≤ ((s * b : ℕ) : ℚ) - 1 := by linarith
        _ < (s:ℚ) * b * (1 - 1/2^53)^3 := hsmall2
        _ ≤ w * a := key_l
    have hq3 : ((s * b / a : ℕ) : ℚ) < w + 1 := by
      have haQ0 : (0:ℚ) < a := by exact_mod_cast ha
      by_contra hcon
      push_neg at hcon
      have hcmul : (w + 1) * a ≤ ((s * b / a : ℕ) : ℚ) * a :=
        mul_le_mul_of_nonneg_right hcon (le_of_lt haQ0)
      have hexp : (w + 1) * a = w * a + a := by ring
      linarith
    have hq4 : ((s * b / a : ℕ) : ℚ) < (⌊w⌋₊ : ℚ) + 1 + 1 := by
      have := Nat.lt_floor_add_one w
      linarith
    have hq5 : s * b / a < ⌊w⌋₊ + 1 + 1 := by exact_mod_cast hq4
    rw [hw]
    omega

/-- C1: the claim says every output fits inside the 320 x 240 box; the code
computes (320, 288) for a 100 x 90 bitmap, whose height exceeds 240, so the
code contradicts its own stated purpose of fitting the screen. -/
theorem c1_landscape_exceeds_box :
    scaledDims 100 90 = (320, 288) ∧ ¬ (scaledDims 100 90).2 ≤ 240 := by
  decide

/-- C2 counterexample: for the 154 x 77 bitmap the claim predicts target
height floor(320 * 77 / 154) = 160, but the double arithmetic of the code
yields 159. -/
theorem c2_counterexample :
    ¬ scaledDims 154 77 = (320, 320 * 77 / 154) := by
  decide

/-- C2 amended: for every non-square bitmap the computed dimensions follow
the spec algorithm with the arithmetic read as IEEE-754 double arithmetic
(not exact rationals); when the scaled product is below 2 ^ 50 the computed
value is the exact floor or the exact floor minus one. -/
theorem c2_amended (iw ih : Nat) (h : iw ≠ ih) :
    scaledDims iw ih = targetDimsSpec iw ih ∧
    (ih < iw → 0 < ih → 320 * ih < 2 ^ 50 →
      scaledDims iw ih = (320, pyScale 320 iw ih) ∧
      pyScale 320 iw ih ≤ 320 * ih / iw ∧ 320 * ih / iw ≤ pyScale 320 iw ih + 1) ∧
    (iw < ih → 0 < iw → 240 * iw < 2 ^ 50 →
      scaledDims iw ih = (pyScale 240 ih iw, 240) ∧
      pyScale 240 ih iw ≤ 240 * iw / ih ∧ 240 * iw / ih ≤ pyScale 240 ih iw + 1) := by
  refine ⟨?_, ?_, ?_⟩
  · unfold scaledDims targetDimsSpec
    rw [if_pos h, if_neg h]
  · intro hlt hpos hbound
    have hiw : 0 < iw := by omega
    obtain ⟨h1, h2⟩ := pyScale_bracket 320 iw ih (by omega) hiw hpos hbound
    refine ⟨?_, h1, h2⟩
    unfold scaledDims
    rw [if_pos h, if_pos (by omega : iw > ih)]
  · intro hlt hpos hbound
    have hih : 0 < ih := by omega
    obtain ⟨h1, h2⟩ := pyScale_bracket 240 ih iw (by omega) hih hpos hbound
    refine ⟨?_, h1, h2⟩
    unfold scaledDims
    rw [if_pos h, if_neg (by omega : ¬ iw > ih)]

/-- Witness for the amended C2 at the 4 x 3 bitmap. -/
theorem c2_amended_witness :
    (4:Nat) ≠ 3 ∧ ((3:Nat) < 4 ∧ (0:Nat) < 3 ∧ 320 * 3 < 2 ^ 50) ∧
    scaledDims 4 3 = (320, pyScale 320 4 3) ∧
    pyScale 320 4 3 ≤ 320 * 3 / 4 ∧ 320 * 3 / 4 ≤ pyScale 320 4 3 + 1 :=
  ⟨by decide, ⟨by decide, by decide, by decide⟩,
    (c2_amended 4 3 (by decide)).2.1 (by decide) (by decide) (by decide)⟩

/-- C3 counterexample: for the 3 x 2 bitmap the output is 320 x 213 and
320 / 213 is not equal to 3 / 2, so the output aspect ratio is not exactly
the source aspect ratio. -/
theorem c3_counterexample :
    ¬ (scaledDims 3 2).1 * 2 = (scaledDims 3 2).2 * 3 := by
  decide

/-- C3 amended: the aspect ratio is preserved exactly for square bitmaps and
up to the truncation of the fitted dimension to a whole pixel otherwise: for
a landscape bitmap the cross products satisfy
h * iw ≤ 320 * ih < (h + 2) * iw, and symmetrically for portrait, when the
scaled product stays below 2 ^ 50. -/
theorem c3_amended (iw ih : Nat) (hiw : 0 < iw) (hih : 0 < ih) :
    (iw = ih → (scaledDims iw ih).1 * ih = (scaledDims iw ih).2 * iw) ∧
    (ih < iw → 320 * ih < 2 ^ 50 →
      (scaledDims iw ih).2 * iw ≤ 320 * ih ∧
      320 * ih < ((scaledDims iw ih).2 + 2) * iw) ∧
    (iw < ih → 240 * iw < 2 ^ 50 →
      (scaledDims iw ih).1 * ih ≤ 240 * iw ∧
      240 * iw < ((scaledDims iw ih).1 + 2) * ih) := by
  refine ⟨?_, ?_, ?_⟩
  · intro he
    subst he
    simp [scaledDims]
  · intro hlt hbound
    have hne : iw ≠ ih := by omega
    have hd : scaledDims iw ih = (320, pyScale 320 iw ih) := by
      unfold scaledDims
      rw [if_pos hne, if_pos (by omega : iw > ih)]
    rw [hd]
    simp only
    obtain ⟨h1, h2⟩ := pyScale_bracket 320 iw ih (by omega) (by omega) hih hbound
    constructor
    · calc pyScale 320 iw ih * iw ≤ (320 * ih / iw) * iw := Nat.mul_le_mul_right _ h1
        _ ≤ 320 * ih := Nat.div_mul_le_self _ _
    · have hq1 : 320 * ih < (320 * ih / iw + 1) * iw := by
        have hdm := Nat.div_add_mod (320 * ih) iw
        have hmod : 320 * ih % iw < iw := Nat.mod_lt _ (by omega)
        calc 320 * ih = iw * (320 * ih / iw) + 320 * ih % iw := hdm.symm
          _ < iw * (320 * ih / iw) + iw := by omega
          _ = (320 * ih / iw + 1) * iw := by ring
      calc 320 * ih < (320 * ih / iw + 1) * iw := hq1
        _ ≤ (pyScale 320 iw ih + 2) * iw := Nat.mul_le_mul_right _ (by omega)
  · intro hlt hbound
    have hne : iw ≠ ih := by omega
    have hd : scaledDims iw ih = (pyScale 240 ih iw, 240) := by
      unfold scaledDims
      rw [if_pos hne, if_neg (by omega : ¬ iw > ih)]
    rw [hd]
    simp only
    obtain ⟨h1, h2⟩ := pyScale_bracket 240 ih iw (by omega) (by omega) hiw hbound
    constructor
    · calc pyScale 240 ih iw * ih ≤ (240 * iw / ih) * ih := Nat.mul_le_mul_right _ h1
        _ ≤ 240 * iw := Nat.div_mul_le_self _ _
    · have hq1 : 240 * iw < (240 * iw / ih + 1) * ih := by
        have hdm := Nat.div_add_mod (240 * iw) ih
        have hmod : 240 * iw % ih < ih := Nat.mod_lt _ (by omega)
        calc 240 * iw = ih * (240 * iw / ih) + 240 * iw % ih := hdm.symm
          _ < ih * (240 * iw / ih) + ih := by omega
          _ = (240 * iw / ih + 1) * ih := by ring
      calc 240 * iw < (240 * iw / ih + 1) * ih := hq1
        _ ≤ (pyScale 240 ih iw + 2) * ih := Nat.mul_le_mul_right _ (by omega)

/-- Witness for the amended C3 at the 8 x 6 bitmap. -/
theorem c3_amended_witness :
    (0:Nat) < 8 ∧ (0:Nat) < 6 ∧ ((6:Nat) < 8 ∧ 320 * 6 < 2 ^ 50) ∧
    (scaledDims 8 6).2 * 8 ≤ 320 * 6 ∧ 320 * 6 < ((scaledDims 8 6).2 + 2) * 8 :=
  ⟨by decide, by decide, ⟨by decide, by decide⟩,
    (c3_amended 8 6 (by decide) (by decide)).2.1 (by decide) (by decide)⟩

/-- C8: every square bitmap is scaled to min(320, 240) in both dimensions,
that is, to 240 x 240, regardless of the source size. -/
theorem c8_square_dims (n : Nat) : scaledDims n n = (240, 240) := by
  simp [scaledDims]

/-- C10 counterexample: the claim quantifies over every bitmap with
iw > 320 * ih, but at ih = 2 ^ 46 and iw = 320 * 2 ^ 46 + 1 the double
rounding yields target height 1, not 0. -/
theorem c10_counterexample :
    320 * 70368744177664 < 22517998136852481 ∧
    scaledDims 22517998136852481 70368744177664 = (320, 1) := by
  decide

/-- C10 amended: for every bitmap with iw > 320 * ih whose height keeps
320 * ih below 2 ^ 50 (every physically plausible size), the computed target
height is 0, so the resize is requested with a zero dimension: the scaler
imposes no lower bound of one pixel. -/
theorem c10_amended (iw ih : Nat) (hih : 0 < ih) (hgt : 320 * ih < iw)
    (hbound : 320 * ih < 2 ^ 50) :
    scaledDims iw ih = (320, 0) := by
  have hlt : ih < iw := by omega
  have hiw : 0 < iw := by omega
  obtain ⟨hub, _⟩ := pyScale_bracket 320 iw ih (by omega) hiw hih hbound
  have hdiv : 320 * ih / iw = 0 := Nat.div_eq_of_lt hgt
  have hz : pyScale 320 iw ih = 0 := by omega
  unfold scaledDims
  rw [if_pos (by omega : iw ≠ ih), if_pos (by omega : iw > ih), hz]

/-- Witness for the amended C10 at the 1000 x 1 bitmap. -/
theorem c10_amended_witness :
    (0:Nat) < 1 ∧ 320 * 1 < 1000 ∧ 320 * 1 < 2 ^ 50 ∧
    scaledDims 1000 1 = (320, 0) :=
  ⟨by decide, by decide, by decide,
    c10_amended 1000 1 (by decide) (by decide) (by decide)⟩

/-- The download phase always records the URL it was asked to fetch. -/
theorem download_assetRequest (env : Env) (url : String) :
    (download env url).assetRequest = some url := by
  unfold download
  split
  · rfl
  · split
    · rfl
    · rfl

/-- C4: the asset URL is selected by the media_type discriminant: url for
image entries, thumbnail_url for video entries. -/
theorem c4_asset_url_selection (env : Env) (u : String)
    (hs : env.metaStatus = 200) :
    (List.lookup "media_type" env.metaDoc = some "image" →
      List.lookup "url" env.metaDoc = some u →
      (runMain env).assetRequest = some u) ∧
    (List.lookup "media_type" env.metaDoc = some "video" →
      List.lookup "thumbnail_url" env.metaDoc = some u →
      (runMain env).assetRequest = some u) := by
  constructor
  · intro h1 h2
    have hrm : runMain env = download env u := by
      simp [runMain, hs, h1, h2]
    rw [hrm]
    exact download_assetRequest env u
  · intro h1 h2
    have hrm : runMain env = download env u := by
      simp [runMain, hs, h1, h2]
    rw [hrm]
    exact download_assetRequest env u

/-- Witness for C4 on a concrete image metadata document and a concrete
video metadata document. -/
theorem c4_asset_url_selection_witness :
    ((Env.mk 200 [("media_type", "image"), ("url", "X")] 200
        (some (4, 3))).metaStatus = 200 ∧
      (runMain (Env.mk 200 [("media_type", "image"), ("url", "X")] 200
        (some (4, 3)))).assetRequest = some "X") ∧
    ((Env.mk 200 [("media_type", "video"), ("thumbnail_url", "Y")] 200
        (some (4, 3))).metaStatus = 200 ∧
      (runMain (Env.mk 200 [("media_type", "video"), ("thumbnail_url", "Y")] 200
        (some (4, 3)))).assetRequest = some "Y") :=
  ⟨⟨rfl, (c4_asset_url_selection
      (Env.mk 200 [("media_type", "image"), ("url", "X")] 200 (some (4, 3)))
      "X" rfl).1 (by decide) (by decide)⟩,
   ⟨rfl, (c4_asset_url_selection
      (Env.mk 200 [("media_type", "video"), ("thumbnail_url", "Y")] 200
        (some (4, 3)))
      "Y" rfl).2 (by decide) (by decide)⟩⟩

/-- C5: a non-200 metadata response terminates the run with exit code 1,
prints the status code, does not parse the JSON body, and issues no asset
download. -/
theorem c5_meta_failure (env : Env) (h : env.metaStatus ≠ 200) :
    (runMain env).exit = ExitKind.exited 1 ∧
    Msg.respCode env.metaStatus ∈ (runMain env).out ∧
    (runMain env).parsedJson = false ∧
    (runMain env).assetRequest = none := by
  have hrm : runMain env =
      ⟨[Msg.errContact, Msg.respCode env.metaStatus], false, none, none,
        ExitKind.exited 1⟩ := by
    unfold runMain
    rw [if_pos h]
  rw [hrm]
  refine ⟨rfl, ?_, rfl, rfl⟩
  simp

/-- Witness for C5 on a 404 metadata response. -/
theorem c5_meta_failure_witness :
    (Env.mk 404 [] 200 none).metaStatus ≠ 200 ∧
    (runMain (Env.mk 404 [] 200 none)).exit = ExitKind.exited 1 ∧
    Msg.respCode 404 ∈ (runMain (Env.mk 404 [] 200 none)).out ∧
    (runMain (Env.mk 404 [] 200 none)).parsedJson = false ∧
    (runMain (Env.mk 404 [] 200 none)).assetRequest = none :=
  ⟨by decide, c5_meta_failure (Env.mk 404 [] 200 none) (by decide)⟩

/-- C6: when the metadata fetch succeeds and an asset URL is selected but
the asset download returns a non-200 status, the run exits with code 1,
prints the status code, writes nothing, and leaves the output path
unchanged. -/
theorem c6_download_failure (env : Env) (fs : Option OutFile) (u : String)
    (hs : env.metaStatus = 200)
    (hsel : (List.lookup "media_type" env.metaDoc = some "image" ∧
             List.lookup "url" env.metaDoc = some u) ∨
            (List.lookup "media_type" env.metaDoc = some "video" ∧
             List.lookup "thumbnail_url" env.metaDoc = some u))
    (ha : env.assetStatus ≠ 200) :
    (runMain env).exit = ExitKind.exited 1 ∧
    Msg.respCode env.assetStatus ∈ (runMain env).out ∧
    (runMain env).written = none ∧
    (runApp env fs).2 = fs := by
  have hdl : download env u =
      ⟨[Msg.errDownload, Msg.respCode env.assetStatus], true, some u, none,
        ExitKind.exited 1⟩ := by
    unfold download
    rw [if_pos ha]
  have hrm : runMain env = download env u := by
    rcases hsel with ⟨h1, h2⟩ | ⟨h1, h2⟩
    · simp [runMain, hs, h1, h2]
    · simp [runMain, hs, h1, h2]
  rw [hrm, hdl]
  refine ⟨rfl, ?_, rfl, ?_⟩
  · simp
  · unfold runApp
    rw [hrm, hdl]

/-- Witness for C6 on a 500 asset response after a successful metadata
fetch. -/
theorem c6_download_failure_witness :
    (Env.mk 200 [("media_type", "image"), ("url", "X")] 500 none).metaStatus
      = 200 ∧
    (Env.mk 200 [("media_type", "image"), ("url", "X")] 500 none).assetStatus
      ≠ 200 ∧
    (runMain (Env.mk 200 [("media_type", "image"), ("url", "X")] 500
      none)).exit = ExitKind.exited 1 ∧
    Msg.respCode 500 ∈ (runMain (Env.mk 200 [("media_type", "image"),
      ("url", "X")] 500 none)).out ∧
    (runMain (Env.mk 200 [("media_type", "image"), ("url", "X")] 500
      none)).written = none ∧
    (runApp (Env.mk 200 [("media_type", "image"), ("url", "X")] 500 none)
      none).2 = none :=
  ⟨by decide, by decide,
    c6_download_failure
      (Env.mk 200 [("media_type", "image"), ("url", "X")] 500 none) none "X"
      rfl (Or.inl ⟨by decide, by decide⟩) (by decide)⟩

/-- C7: a media_type that is neither image nor video terminates the run
with exit code 1 after the parse diagnostic, and no download is issued. -/
theorem c7_unknown_media (env : Env) (mt : String)
    (hs : env.metaStatus = 200)
    (hmt : List.lookup "media_type" env.metaDoc = some mt)
    (h1 : mt ≠ "image") (h2 : mt ≠ "video") :
    (runMain env).exit = ExitKind.exited 1 ∧
    Msg.errParse ∈ (runMain env).out ∧
    (runMain env).assetRequest = none := by
  have hrm : runMain env =
      ⟨[Msg.errParse], true, none, none, ExitKind.exited 1⟩ := by
    simp [runMain, hs, hmt, h1, h2]
  rw [hrm]
  refine ⟨rfl, ?_, rfl⟩
  simp

/-- Witness for C7 on a metadata document with media_type other. -/
theorem c7_unknown_media_witness :
    (Env.mk 200 [("media_type", "other")] 200 none).metaStatus = 200 ∧
    List.lookup "media_type"
      (Env.mk 200 [("media_type", "other")] 200 none).metaDoc
      = some "other" ∧
    (runMain (Env.mk 200 [("media_type", "other")] 200 none)).exit
      = ExitKind.exited 1 ∧
    Msg.errParse ∈ (runMain (Env.mk 200 [("media_type", "other")] 200
      none)).out ∧
    (runMain (Env.mk 200 [("media_type", "other")] 200 none)).assetRequest
      = none :=
  ⟨by decide, by decide,
    c7_unknown_media (Env.mk 200 [("media_type", "other")] 200 none) "other"
      rfl (by decide) (by decide) (by decide)⟩

/-- A successful download phase writes the fixed baseline JPEG. -/
theorem download_success_parts (env : Env) (u : String)
    (h : (download env u).exit = ExitKind.success) :
    ∃ f : OutFile, (download env u).written = some f ∧
      f.path = "../image/apod.jpg" ∧ f.format = "JPEG" ∧
      f.progressive = false := by
  by_cases hst : env.assetStatus ≠ 200
  · exfalso
    unfold download at h
    rw [if_pos hst] at h
    simp at h
  · rcases hdec : env.decoded with _ | ⟨iw, ih⟩
    · exfalso
      unfold download at h
      rw [if_neg hst, hdec] at h
      simp at h
    · refine ⟨⟨"../image/apod.jpg", "JPEG", false,
        (scaledDims iw ih).1, (scaledDims iw ih).2⟩, ?_, rfl, rfl, rfl⟩
      unfold download
      rw [if_neg hst, hdec]

/-- A run of main that ends in success went through the download phase for
some selected URL. -/
theorem runMain_success_eq (env : Env)
    (h : (runMain env).exit = ExitKind.success) :
    ∃ u : String, runMain env = download env u := by
  by_cases hms : env.metaStatus ≠ 200
  · exfalso
    unfold runMain at h
    rw [if_pos hms] at h
    simp at h
  · have hs : env.metaStatus = 200 := by omega
    rcases hmt : List.lookup "media_type" env.metaDoc with _ | mt
    · exfalso
      rw [show runMain env = ⟨[], true, none, none, ExitKind.crash⟩ from by
        simp [runMain, hs, hmt]] at h
      simp at h
    · by_cases h1 : mt = "image"
      · rcases hu : List.lookup "url" env.metaDoc with _ | u
        · exfalso
          rw [show runMain env = ⟨[], true, none, none, ExitKind.crash⟩ from by
            simp [runMain, hs, hmt, h1, hu]] at h
          simp at h
        · exact ⟨u, by simp [runMain, hs, hmt, h1, hu]⟩
      · by_cases h2 : mt = "video"
        · rcases hu : List.lookup "thumbnail_url" env.metaDoc with _ | u
          · exfalso
            rw [show runMain env = ⟨[], true, none, none, ExitKind.crash⟩ from by
              simp [runMain, hs, hmt, h1, h2, hu]] at h
            simp at h
          · exact ⟨u, by simp [runMain, hs, hmt, h1, h2, hu]⟩
        · exfalso
          rw [show runMain env = ⟨[Msg.errParse], true, none, none,
              ExitKind.exited 1⟩ from by
            simp [runMain, hs, hmt, h1, h2]] at h
          simp at h

/-- C9: every successful run writes the resized bitmap as a baseline JPEG
(progressive disabled) at the fixed relative path, and the output path holds
that file afterwards whatever it held before. -/
theorem c9_success_write (env : Env) (fs : Option OutFile)
    (h : (runMain env).exit = ExitKind.success) :
    ∃ f : OutFile, (runMain env).written = some f ∧
      f.path = "../image/apod.jpg" ∧ f.format = "JPEG" ∧
      f.progressive = false ∧ (runApp env fs).2 = some f := by
  obtain ⟨u, hrm⟩ := runMain_success_eq env h
  rw [hrm] at h
  obtain ⟨f, hwf, hp, hf, hpr⟩ := download_success_parts env u h
  refine ⟨f, ?_, hp, hf, hpr, ?_⟩
  · rw [hrm]
    exact hwf
  · show (match (runMain env).written with
      | some g => some g
      | none => fs) = some f
    rw [hrm, hwf]

/-- Witness for C9 on a fully successful concrete run over a 4 x 3 bitmap,
starting from a nonempty output path. -/
theorem c9_success_write_witness :
    (runMain (Env.mk 200 [("media_type", "image"), ("url", "X")] 200
      (some (4, 3)))).exit = ExitKind.success ∧
    ∃ f : OutFile,
      (runMain (Env.mk 200 [("media_type", "image"), ("url", "X")] 200
        (some (4, 3)))).written = some f ∧
      f.path = "../image/apod.jpg" ∧ f.format = "JPEG" ∧
      f.progressive = false ∧
      (runApp (Env.mk 200 [("media_type", "image"), ("url", "X")] 200
        (some (4, 3)))
        (some (OutFile.mk "../image/apod.jpg" "JPEG" true 1 1))).2 = some f :=
  ⟨by decide,
    c9_success_write
      (Env.mk 200 [("media_type", "image"), ("url", "X")] 200 (some (4, 3)))
      (some (OutFile.mk "../image/apod.jpg" "JPEG" true 1 1)) (by decide)⟩
